import Mathlib

/-!
Verification of the pricing impact engine of `backend/pricing/calculator.py`.

The engine is embedded shallowly over `ℚ`:

* a pandas row becomes a `SkuRecord`; the nullable numeric columns that the
  engine tests with `pd.notna` (`price_elasticity`, `gp`) become `Option ℚ`,
  while `customer_price` and `volume_sold` are modelled as present numerics;
* Python's `round(x, d)` (round half to even) becomes `rnd d x`;
* a float division whose denominator may be zero (which on the numpy floats
  of the dataframe silently yields NaN or ±Infinity, not an exception)
  becomes `pyDiv`, returning `none` for the non-finite outcome; every value
  that can be NaN downstream is therefore an `Option ℚ`, `none` = non-finite;
* `df[df['name'] == n].iloc[0]` (first row in table order, `IndexError`
  when the selection is empty) becomes `lookupSku`, with the empty-selection
  failure surfaced as `Err.notFound` (the spec's `NotFoundError`);
* the in-place dataframe writes of `analyze_market_impact` act on the working
  copy `market_data = base_data.copy()`, modelled by explicit list passing.
-/

/-- Round a rational to the nearest integer, ties to even — the tie rule of
Python's builtin `round`.  (`Rat.floor` is used rather than `⌊·⌋` so that the
definition evaluates inside the kernel; they agree by `Rat.floor_def'`.) -/
def roundHalfEven (q : ℚ) : ℤ :=
  if q - q.floor < 1/2 then q.floor
  else if 1/2 < q - q.floor then q.floor + 1
  else if q.floor % 2 = 0 then q.floor else q.floor + 1

/-- Python's `round(x, d)`: round to `d` decimal places, ties to even. -/
def rnd (d : ℕ) (x : ℚ) : ℚ := (roundHalfEven (x * 10 ^ d) : ℚ) / 10 ^ d

/-- Division as it behaves on the dataframe's floats: a zero denominator
silently produces a non-finite value (NaN or ±Infinity), modelled `none`. -/
def pyDiv (a b : ℚ) : Option ℚ := if b = 0 then none else some (a / b)

/-- One row of the SKU table, restricted to the columns the engine reads.
`price_elasticity` and `gp` are the columns the engine probes with
`pd.notna`; absence (NaN in the dataframe) is `none`. -/
@[ext]
structure SkuRecord where
  name : String
  customer_price : ℚ
  volume_sold : ℚ
  price_elasticity : Option ℚ
  gp : Option ℚ
deriving DecidableEq, Repr

/-- One entry of the `price_changes` list of `analyze_market_impact`
(the dict `{'sku_name': ..., 'price_change': ...}`). -/
@[ext]
structure PriceChange where
  sku_name : String
  price_change : ℚ
deriving DecidableEq, Repr

/-- The dict returned by `calculate_price_impact`. `new_gp = none` models
Python `None` (gp column absent); `volume_change_percent = none` models a
NaN produced by the unguarded division by `volume_sold`. -/
@[ext]
structure SingleImpact where
  new_price : ℚ
  new_volume : ℚ
  new_revenue : ℚ
  new_gp : Option ℚ
  volume_change_percent : Option ℚ
deriving DecidableEq, Repr

/-- One value of the market-share dict: `none` models a NaN share coming
from a zero total in the unguarded divisions. -/
@[ext]
structure ShareEntry where
  volume_share : Option ℚ
  value_share : Option ℚ
deriving DecidableEq, Repr

/-- The dict returned by `analyze_market_impact`; the share dict is modelled
as an insertion-ordered association list, like a Python dict. -/
@[ext]
structure MarketImpact where
  market_volume_change : Option ℚ
  market_revenue_change : Option ℚ
  new_market_shares : List (String × ShareEntry)
deriving DecidableEq, Repr

/-- Failure of the engine: the `IndexError` raised by `.iloc[0]` /
`.index[0]` on an empty name selection, which the spec surfaces as
`NotFoundError`. -/
inductive Err where
  | notFound (sku_name : String)
deriving DecidableEq, Repr

/-- The row selection `base_data[base_data['name'] == sku_name].iloc[0]`:
first row whose `name` matches, in table order. -/
def lookupSku (base_data : List SkuRecord) (sku_name : String) : Option SkuRecord :=
  base_data.find? (fun r => r.name = sku_name)

/-- The unrounded `new_price` of `calculate_price_impact`:
`sku['customer_price'] * (1 + price_change_percent / 100)`. -/
def newPriceRaw (sku : SkuRecord) (price_change_percent : ℚ) : ℚ :=
  sku.customer_price * (1 + price_change_percent / 100)

/-- The unrounded `new_volume` of `calculate_price_impact`: if
`pd.notna(price_elasticity)` then
`volume_sold * (1 + (price_elasticity * price_change_percent) / 100)`,
else `volume_sold` unchanged. -/
def newVolumeRaw (sku : SkuRecord) (price_change_percent : ℚ) : ℚ :=
  match sku.price_elasticity with
  | some e => sku.volume_sold * (1 + (e * price_change_percent) / 100)
  | none => sku.volume_sold

/-- The body of `calculate_price_impact` after the row lookup: builds the
result dict from the selected row. -/
def impactRecord (sku : SkuRecord) (price_change_percent : ℚ) : SingleImpact :=
  let new_price := newPriceRaw sku price_change_percent
  let new_volume := newVolumeRaw sku price_change_percent
  let new_revenue := new_price * new_volume
  { new_price := rnd 2 new_price
    new_volume := rnd 2 new_volume
    new_revenue := rnd 2 new_revenue
    new_gp := sku.gp.map (fun g => rnd 2 (new_revenue * (g / 100)))
    volume_change_percent :=
      (pyDiv (new_volume - sku.volume_sold) sku.volume_sold).map
        (fun q => rnd 1 (q * 100)) }

/-- `PriceCalculator.calculate_price_impact`: look the SKU up by name
(first match in table order, `NotFoundError` when absent) and project the
price change on it. -/
def calculate_price_impact (base_data : List SkuRecord) (sku_name : String)
    (price_change_percent : ℚ) : Except Err SingleImpact :=
  match lookupSku base_data sku_name with
  | none => .error (.notFound sku_name)
  | some sku => .ok (impactRecord sku price_change_percent)

/-- The write `market_data.at[idx, ...] = ...` where
`idx = market_data[market_data['name'] == sku_name].index[0]`: replace
`volume_sold` and `customer_price` of the first row whose name matches. -/
def updateFirst (market_data : List SkuRecord) (sku_name : String)
    (nv np : ℚ) : List SkuRecord :=
  match market_data with
  | [] => []
  | r :: rest =>
    if r.name = sku_name then
      { r with volume_sold := nv, customer_price := np } :: rest
    else r :: updateFirst rest sku_name nv np

/-- The `for change in price_changes` loop of `analyze_market_impact`: each
change is projected against `base_data` (the snapshot held by `self`, never
the working copy) and its rounded `new_volume` / `new_price` are written
into the working copy; an `IndexError` aborts the whole call. -/
def applyChanges (base_data : List SkuRecord) (market_data : List SkuRecord) :
    List PriceChange → Except Err (List SkuRecord)
  | [] => .ok market_data
  | c :: cs =>
    match calculate_price_impact base_data c.sku_name c.price_change with
    | .error e => .error e
    | .ok impact =>
      applyChanges base_data
        (updateFirst market_data c.sku_name impact.new_volume impact.new_price) cs

/-- Python dict assignment `m[k] = v` on an insertion-ordered dict: replace
in place when the key exists, append otherwise. -/
def insertAssoc (m : List (String × ShareEntry)) (k : String) (v : ShareEntry) :
    List (String × ShareEntry) :=
  match m with
  | [] => [(k, v)]
  | (k', v') :: rest =>
    if k' = k then (k, v) :: rest else (k', v') :: insertAssoc rest k v

/-- One entry of the share dict, for given totals:
`volume_share = (volume_sold / total_volume) * 100` and
`value_share = ((customer_price * volume_sold) / total_revenue) * 100`,
each rounded to 1 decimal place; a zero total leaves a NaN (`none`). -/
def shareEntry (total_volume total_revenue : ℚ) (sku : SkuRecord) : ShareEntry :=
  { volume_share := (pyDiv sku.volume_sold total_volume).map (fun q => rnd 1 (q * 100))
    value_share :=
      (pyDiv (sku.customer_price * sku.volume_sold) total_revenue).map
        (fun q => rnd 1 (q * 100)) }

/-- `PriceCalculator._calculate_market_shares`: totals over the table, then
one dict entry per row keyed by `name`, in row order.  (`volume_sold` is
modelled as an always-present numeric, so the `pd.notna(sku['volume_sold'])`
guard of the source is always true here.) -/
def calculate_market_shares (market_data : List SkuRecord) :
    List (String × ShareEntry) :=
  let total_volume := (market_data.map (fun r => r.volume_sold)).sum
  let total_revenue := (market_data.map (fun r => r.customer_price * r.volume_sold)).sum
  market_data.foldl
    (fun m sku => insertAssoc m sku.name (shareEntry total_volume total_revenue sku)) []

/-- `PriceCalculator.analyze_market_impact`: baseline totals from the
snapshot, the change loop on the working copy (initially
`base_data.copy()`), post-change totals from the working copy, percentage
changes rounded to 1 decimal place, and the recomputed share dict. -/
def analyze_market_impact (base_data : List SkuRecord)
    (price_changes : List PriceChange) : Except Err MarketImpact :=
  let market_data := base_data
  let total_market_volume := (market_data.map (fun r => r.volume_sold)).sum
  let total_market_revenue :=
    (market_data.map (fun r => r.customer_price * r.volume_sold)).sum
  match applyChanges base_data market_data price_changes with
  | .error e => .error e
  | .ok md =>
    let new_total_volume := (md.map (fun r => r.volume_sold)).sum
    let new_total_revenue := (md.map (fun r => r.customer_price * r.volume_sold)).sum
    .ok
      { market_volume_change :=
          (pyDiv (new_total_volume - total_market_volume) total_market_volume).map
            (fun q => rnd 1 (q * 100))
        market_revenue_change :=
          (pyDiv (new_total_revenue - total_market_revenue) total_market_revenue).map
            (fun q => rnd 1 (q * 100))
        new_market_shares := calculate_market_shares md }

/-- The `PriceCalculator` object: its only state is the snapshot
`base_data` received at construction. -/
@[ext]
structure PriceCalculator where
  base_data : List SkuRecord
deriving DecidableEq, Repr

/-- `calculate_price_impact` as a state transformer on the calculator
object: it only reads `self.base_data`, so the object after the call is
returned alongside the result. -/
def calcImpactState (c : PriceCalculator) (sku_name : String)
    (price_change_percent : ℚ) : Except Err SingleImpact × PriceCalculator :=
  (calculate_price_impact c.base_data sku_name price_change_percent, c)

/-- `analyze_market_impact` as a state transformer on the calculator
object: all writes of the source go to the local `market_data` copy, never
to `self.base_data`, so the object after the call is the object before. -/
def analyzeMarketState (c : PriceCalculator) (price_changes : List PriceChange) :
    Except Err MarketImpact × PriceCalculator :=
  (analyze_market_impact c.base_data price_changes, c)

/-- The last change of a batch naming a given SKU, if any — the one whose
write survives in the working copy (last write wins). -/
def lastChangeFor (price_changes : List PriceChange) (n : String) : Option PriceChange :=
  (price_changes.filter (fun c => c.sku_name = n)).getLast?

/-- Spec-side description of one row of the working copy after a batch: a
row named by no change is unchanged; a row named by some changes carries
the rounded `new_volume` / `new_price` of the LAST such change, projected
against the original snapshot `base_data`.  (The `.error` branch is
unreachable when every change's name resolves.) -/
def projectedRow (base_data : List SkuRecord) (price_changes : List PriceChange)
    (r : SkuRecord) : SkuRecord :=
  match lastChangeFor price_changes r.name with
  | none => r
  | some c =>
    match calculate_price_impact base_data c.sku_name c.price_change with
    | .ok imp => { r with volume_sold := imp.new_volume, customer_price := imp.new_price }
    | .error _ => r

/-! ### Basic lemmas about the rounding and lookup helpers -/

theorem ratFloor_eq_floor (q : ℚ) : q.floor = ⌊q⌋ := by
  rw [Rat.floor_def', Rat.floor_def]

theorem roundHalfEven_sub_le (q : ℚ) : |(roundHalfEven q : ℚ) - q| ≤ 1/2 := by
  have h1 : ((⌊q⌋ : ℤ) : ℚ) ≤ q := Int.floor_le q
  have h2 : q < ⌊q⌋ + 1 := Int.lt_floor_add_one q
  unfold roundHalfEven
  rw [ratFloor_eq_floor]
  split_ifs with ha hb hc
  all_goals rw [abs_le]; push_cast at *; constructor <;> linarith

theorem rnd_one_err (x : ℚ) : |rnd 1 x - x| ≤ 1/20 := by
  have h := roundHalfEven_sub_le (x * 10)
  unfold rnd
  have he : (roundHalfEven (x * 10 ^ 1) : ℚ) / 10 ^ 1 - x
      = ((roundHalfEven (x * 10) : ℚ) - x * 10) / 10 := by
    norm_num
    ring
  rw [he, abs_div]
  rw [abs_of_pos (by norm_num : (0:ℚ) < 10)]
  linarith [abs_nonneg ((roundHalfEven (x * 10) : ℚ) - x * 10)]

theorem rnd_one_zero : rnd 1 0 = 0 := by with_unfolding_all rfl

theorem lookupSku_eq_of_mem (data : List SkuRecord) (r : SkuRecord) (n : String)
    (hnd : (data.map (fun s => s.name)).Nodup) (hmem : r ∈ data) (hname : r.name = n) :
    lookupSku data n = some r := by
  induction data with
  | nil => cases hmem
  | cons d rest ih =>
    rw [List.map_cons, List.nodup_cons] at hnd
    rcases List.mem_cons.mp hmem with h | h
    · subst h
      simp [lookupSku, List.find?_cons_of_pos, hname]
    · have hd : d.name ≠ n := by
        intro hdn
        apply hnd.1
        have hr : r.name ∈ List.map (fun s => s.name) rest :=
          List.mem_map_of_mem (fun s => s.name) h
        rw [hname] at hr
        rw [hdn]
        exact hr
      simpa [lookupSku, List.find?_cons_of_neg, hd] using ih hnd.2 h

theorem calculate_price_impact_of_lookup (data : List SkuRecord) (n : String) (p : ℚ)
    (r : SkuRecord) (hl : lookupSku data n = some r) :
    calculate_price_impact data n p = .ok (impactRecord r p) := by
  simp [calculate_price_impact, hl]

/-! ### C1 — single-SKU projection formulas -/

/-- C1: for every snapshot and record in it named `sku_name`, with
`price_elasticity` present and `volume_sold` nonzero,
`calculate_price_impact` returns `new_price = customer_price * (1 + p/100)`
rounded to 2 decimals, `new_volume = volume_sold * (1 + e*p/100)` rounded to
2 decimals, `new_revenue` = unrounded price times unrounded volume rounded
to 2 decimals, and `volume_change_percent =
((new_volume - volume_sold)/volume_sold)*100` (on the unrounded volume)
rounded to 1 decimal. -/
theorem priceImpact_formula (data : List SkuRecord) (sku_name : String) (p : ℚ)
    (r : SkuRecord) (e : ℚ)
    (hnd : (data.map (fun s => s.name)).Nodup) (hmem : r ∈ data)
    (hname : r.name = sku_name) (he : r.price_elasticity = some e)
    (hv : r.volume_sold ≠ 0) :
    calculate_price_impact data sku_name p = .ok
      { new_price := rnd 2 (r.customer_price * (1 + p / 100))
        new_volume := rnd 2 (r.volume_sold * (1 + e * p / 100))
        new_revenue :=
          rnd 2 (r.customer_price * (1 + p / 100) * (r.volume_sold * (1 + e * p / 100)))
        new_gp := r.gp.map (fun g =>
          rnd 2 (r.customer_price * (1 + p / 100) * (r.volume_sold * (1 + e * p / 100))
            * (g / 100)))
        volume_change_percent := some (rnd 1
          ((r.volume_sold * (1 + e * p / 100) - r.volume_sold) / r.volume_sold * 100)) } := by
  rw [calculate_price_impact_of_lookup data sku_name p r
    (lookupSku_eq_of_mem data r sku_name hnd hmem hname)]
  unfold impactRecord newPriceRaw newVolumeRaw
  rw [he]
  simp [pyDiv, hv]

/-- Witness: the spec §8 scenario (price 10, volume 100, elasticity −2,
gp 20, change +10 %) through `priceImpact_formula`. -/
theorem priceImpact_formula_witness :
    calculate_price_impact [⟨"A", 10, 100, some (-2), some 20⟩] "A" 10
      = .ok ⟨11, 80, 880, some 176, some (-20)⟩ := by
  have h := priceImpact_formula [⟨"A", 10, 100, some (-2), some 20⟩] "A" 10
    ⟨"A", 10, 100, some (-2), some 20⟩ (-2)
    (by simp) (by simp) rfl rfl (by norm_num)
  rw [h]
  with_unfolding_all rfl

/-! ### C6 — gross-profit projection -/

/-- C6: for every record named `sku_name`, the result's `new_gp` is the
unrounded revenue (`newPriceRaw * newVolumeRaw`) times `gp/100`, rounded to
2 decimals, when `gp` is present, and is `none` (absent, not zero) when
`gp` is absent. -/
theorem gpProjection (data : List SkuRecord) (sku_name : String) (p : ℚ)
    (r : SkuRecord)
    (hnd : (data.map (fun s => s.name)).Nodup) (hmem : r ∈ data)
    (hname : r.name = sku_name) :
    calculate_price_impact data sku_name p = .ok (impactRecord r p) ∧
    (∀ g, r.gp = some g → (impactRecord r p).new_gp
      = some (rnd 2 (newPriceRaw r p * newVolumeRaw r p * (g / 100)))) ∧
    (r.gp = none → (impactRecord r p).new_gp = none) := by
  refine ⟨calculate_price_impact_of_lookup data sku_name p r
    (lookupSku_eq_of_mem data r sku_name hnd hmem hname), ?_, ?_⟩
  · intro g hg
    simp [impactRecord, hg]
  · intro hg
    simp [impactRecord, hg]

/-- Witness: `gpProjection` on a record with `gp = 20` (new_gp = 176) and on
one with `gp` absent (new_gp = none). -/
theorem gpProjection_witness :
    calculate_price_impact [⟨"A", 10, 100, some (-2), some 20⟩] "A" 10
        = .ok ⟨11, 80, 880, some 176, some (-20)⟩ ∧
      calculate_price_impact [⟨"B", 10, 100, some (-2), none⟩] "B" 10
        = .ok ⟨11, 80, 880, none, some (-20)⟩ := by
  have h1 := (gpProjection [⟨"A", 10, 100, some (-2), some 20⟩] "A" 10
    ⟨"A", 10, 100, some (-2), some 20⟩ (by simp) (by simp) rfl).1
  have h2 := (gpProjection [⟨"B", 10, 100, some (-2), none⟩] "B" 10
    ⟨"B", 10, 100, some (-2), none⟩ (by simp) (by simp) rfl).1
  refine ⟨?_, ?_⟩
  · rw [h1]; with_unfolding_all rfl
  · rw [h2]; with_unfolding_all rfl

/-! ### C3 — unknown SKU name fails with NotFoundError -/

theorem applyChanges_notFound (base : List SkuRecord) (n : String) (pc : ℚ)
    (hl : lookupSku base n = none) :
    ∀ (pre post : List PriceChange) (md : List SkuRecord),
      (∀ c ∈ pre, (lookupSku base c.sku_name).isSome) →
      applyChanges base md (pre ++ ⟨n, pc⟩ :: post) = .error (.notFound n) := by
  intro pre
  induction pre with
  | nil =>
    intro post md _
    simp [applyChanges, calculate_price_impact, hl]
  | cons c pre ih =>
    intro post md hfound
    obtain ⟨r, hr⟩ := Option.isSome_iff_exists.mp (hfound c (List.mem_cons_self c pre))
    have hcalc := calculate_price_impact_of_lookup base c.sku_name c.price_change r hr
    rw [List.cons_append]
    simp only [applyChanges, hcalc]
    exact ih post _ (fun c' hc' => hfound c' (List.mem_cons_of_mem c hc'))

/-- C3: a `sku_name` matching no record makes `calculate_price_impact` fail
with `NotFoundError`, and makes `analyze_market_impact` fail with
`NotFoundError` for any change list containing that name (reached after any
prefix of resolvable changes), altering no state. -/
theorem unknownSku_notFound (data : List SkuRecord) (n : String) (p pc : ℚ)
    (hl : lookupSku data n = none) :
    calculate_price_impact data n p = .error (.notFound n) ∧
    ∀ (pre post : List PriceChange),
      (∀ c ∈ pre, (lookupSku data c.sku_name).isSome) →
      analyze_market_impact data (pre ++ ⟨n, pc⟩ :: post) = .error (.notFound n) := by
  constructor
  · simp [calculate_price_impact, hl]
  · intro pre post hpre
    simp only [analyze_market_impact]
    rw [applyChanges_notFound data n pc hl pre post data hpre]

/-- Witness: name "B" absent from a one-record snapshot fails both
operations with `NotFoundError`. -/
theorem unknownSku_notFound_witness :
    calculate_price_impact [⟨"A", 10, 100, some (-2), some 20⟩] "B" 3
        = .error (.notFound "B") ∧
      analyze_market_impact [⟨"A", 10, 100, some (-2), some 20⟩] [⟨"B", 3⟩]
        = .error (.notFound "B") := by
  have h := unknownSku_notFound [⟨"A", 10, 100, some (-2), some 20⟩] "B" 3 3
    (by with_unfolding_all rfl)
  refine ⟨h.1, ?_⟩
  have h2 := h.2 [] [] (by simp)
  simpa using h2

/-! ### C5 — absent elasticity leaves volume unchanged (corrected) -/

/-- C5 as stated is false on two counts: the returned `new_volume` is
`volume_sold` ROUNDED to 2 decimals (`0.004` comes back as `0`), and with
`volume_sold = 0` the returned `volume_change_percent` is NaN (`none`), not
`0`.  Both shown at explicit inputs. -/
theorem absentElasticity_volume_cex :
    calculate_price_impact
        [⟨"A", 10, 1/250, none, none⟩, ⟨"B", 10, 0, none, none⟩] "A" 5
        = .ok ⟨21/2, 0, 1/25, none, some 0⟩ ∧
      (0 : ℚ) ≠ 1/250 ∧
      calculate_price_impact
        [⟨"A", 10, 1/250, none, none⟩, ⟨"B", 10, 0, none, none⟩] "B" 5
        = .ok ⟨21/2, 0, 0, none, none⟩ ∧
      (none : Option ℚ) ≠ some 0 := by
  refine ⟨by with_unfolding_all rfl, by norm_num, by with_unfolding_all rfl, by simp⟩

/-- C5 amended: with `price_elasticity` absent, `calculate_price_impact`
returns `new_volume = volume_sold` rounded to 2 decimal places, and
`volume_change_percent = 0` whenever `volume_sold ≠ 0` (it is NaN, `none`,
when `volume_sold = 0`). -/
theorem absentElasticity_volume (data : List SkuRecord) (sku_name : String) (p : ℚ)
    (r : SkuRecord)
    (hnd : (data.map (fun s => s.name)).Nodup) (hmem : r ∈ data)
    (hname : r.name = sku_name) (he : r.price_elasticity = none) :
    calculate_price_impact data sku_name p = .ok (impactRecord r p) ∧
    (impactRecord r p).new_volume = rnd 2 r.volume_sold ∧
    (r.volume_sold ≠ 0 → (impactRecord r p).volume_change_percent = some 0) ∧
    (r.volume_sold = 0 → (impactRecord r p).volume_change_percent = none) := by
  refine ⟨calculate_price_impact_of_lookup data sku_name p r
    (lookupSku_eq_of_mem data r sku_name hnd hmem hname), ?_, ?_, ?_⟩
  · simp [impactRecord, newVolumeRaw, he]
  · intro hv
    simp [impactRecord, newVolumeRaw, he, pyDiv, hv, rnd_one_zero]
  · intro hv
    simp [impactRecord, newVolumeRaw, he, pyDiv, hv]

/-- Witness: a record with elasticity absent and `volume_sold = 100` keeps
volume 100 and reports a 0 % volume change for a +7 % price change. -/
theorem absentElasticity_volume_witness :
    calculate_price_impact [⟨"A", 10, 100, none, some 20⟩] "A" 7
        = .ok (impactRecord ⟨"A", 10, 100, none, some 20⟩ 7) ∧
      (impactRecord ⟨"A", 10, 100, none, some 20⟩ 7).new_volume = 100 ∧
      (impactRecord ⟨"A", 10, 100, none, some 20⟩ 7).volume_change_percent = some 0 := by
  have h := absentElasticity_volume [⟨"A", 10, 100, none, some 20⟩] "A" 7
    ⟨"A", 10, 100, none, some 20⟩ (by simp) (by simp) rfl rfl
  exact ⟨h.1, h.2.1.trans (by with_unfolding_all rfl), h.2.2.1 (by norm_num)⟩

/-! ### C8 — zero price change is the identity projection (corrected) -/

/-- C8 as stated is false: at 0 % the returned price and volume are the
ROUNDED baseline values (`customer_price = volume_sold = 0.004` come back
as `0`), and with `volume_sold = 0` the `volume_change_percent` is NaN
(`none`), not `0`. -/
theorem zeroChange_identity_cex :
    calculate_price_impact
        [⟨"A", 1/250, 1/250, some (-2), none⟩, ⟨"B", 1, 0, none, none⟩] "A" 0
        = .ok ⟨0, 0, 0, none, some 0⟩ ∧
      (0 : ℚ) ≠ 1/250 ∧
      calculate_price_impact
        [⟨"A", 1/250, 1/250, some (-2), none⟩, ⟨"B", 1, 0, none, none⟩] "B" 0
        = .ok ⟨1, 0, 0, none, none⟩ ∧
      (none : Option ℚ) ≠ some 0 := by
  refine ⟨by with_unfolding_all rfl, by norm_num, by with_unfolding_all rfl, by simp⟩

/-- C8 amended: at `price_change_percent = 0` the projection returns
`new_price = customer_price` rounded to 2 decimals, `new_volume =
volume_sold` rounded to 2 decimals, and `volume_change_percent = 0`
provided `volume_sold ≠ 0`. -/
theorem zeroChange_identity (data : List SkuRecord) (sku_name : String)
    (r : SkuRecord)
    (hnd : (data.map (fun s => s.name)).Nodup) (hmem : r ∈ data)
    (hname : r.name = sku_name) :
    calculate_price_impact data sku_name 0 = .ok (impactRecord r 0) ∧
    (impactRecord r 0).new_price = rnd 2 r.customer_price ∧
    (impactRecord r 0).new_volume = rnd 2 r.volume_sold ∧
    (r.volume_sold ≠ 0 → (impactRecord r 0).volume_change_percent = some 0) := by
  have hvol : newVolumeRaw r 0 = r.volume_sold := by
    cases hpe : r.price_elasticity <;> simp [newVolumeRaw, hpe]
  refine ⟨calculate_price_impact_of_lookup data sku_name 0 r
    (lookupSku_eq_of_mem data r sku_name hnd hmem hname), ?_, ?_, ?_⟩
  · simp [impactRecord, newPriceRaw]
  · simp [impactRecord, hvol]
  · intro hv
    simp [impactRecord, hvol, pyDiv, hv, rnd_one_zero]

/-- Witness: a 0 % change on the spec §8 record gives back price 10,
volume 100 and a 0 % volume change. -/
theorem zeroChange_identity_witness :
    calculate_price_impact [⟨"A", 10, 100, some (-2), some 20⟩] "A" 0
        = .ok (impactRecord ⟨"A", 10, 100, some (-2), some 20⟩ 0) ∧
      (impactRecord ⟨"A", 10, 100, some (-2), some 20⟩ 0).new_price = 10 ∧
      (impactRecord ⟨"A", 10, 100, some (-2), some 20⟩ 0).new_volume = 100 ∧
      (impactRecord ⟨"A", 10, 100, some (-2), some 20⟩ 0).volume_change_percent
        = some 0 := by
  have h := zeroChange_identity [⟨"A", 10, 100, some (-2), some 20⟩] "A"
    ⟨"A", 10, 100, some (-2), some 20⟩ (by simp) (by simp) rfl
  exact ⟨h.1, h.2.1.trans (by with_unfolding_all rfl),
    h.2.2.1.trans (by with_unfolding_all rfl), h.2.2.2 (by norm_num)⟩

/-! ### C4 — zero denominators (corrected: unguarded, NaN output) -/

theorem applyChanges_isOk (base : List SkuRecord) :
    ∀ (cs : List PriceChange) (md : List SkuRecord),
      (∀ c ∈ cs, (lookupSku base c.sku_name).isSome) →
      ∃ md', applyChanges base md cs = .ok md' := by
  intro cs
  induction cs with
  | nil => exact fun md _ => ⟨md, rfl⟩
  | cons c cs ih =>
    intro md hfound
    obtain ⟨r, hr⟩ := Option.isSome_iff_exists.mp (hfound c (List.mem_cons_self c cs))
    have hcalc := calculate_price_impact_of_lookup base c.sku_name c.price_change r hr
    simp only [applyChanges, hcalc]
    exact ih _ (fun c' hc' => hfound c' (List.mem_cons_of_mem c hc'))

/-- C4 as stated is false: with `volume_sold = 0` the engine neither raises
a typed error nor defines a numeric result — it succeeds and the returned
`volume_change_percent` is a silently produced NaN (`none`). -/
theorem zeroDenominator_cex :
    calculate_price_impact [⟨"A", 10, 0, some (-2), some 20⟩] "A" 10
      = .ok ⟨11, 0, 0, some 0, none⟩ := by
  with_unfolding_all rfl

/-- C4 amended: zero denominators are unguarded, and the non-finite value
propagates into the output instead of a typed error: with `volume_sold = 0`
the single-SKU call succeeds with `volume_change_percent` = NaN, and with
zero baseline totals the market call succeeds with NaN change
percentages. -/
theorem zeroDenominator_nan (data : List SkuRecord) (n : String) (p : ℚ)
    (r : SkuRecord) (cs : List PriceChange)
    (hl : lookupSku data n = some r) (hv : r.volume_sold = 0)
    (hfound : ∀ c ∈ cs, (lookupSku data c.sku_name).isSome)
    (hV : (data.map (fun s => s.volume_sold)).sum = 0)
    (hR : (data.map (fun s => s.customer_price * s.volume_sold)).sum = 0) :
    calculate_price_impact data n p = .ok (impactRecord r p) ∧
    (impactRecord r p).volume_change_percent = none ∧
    ∃ m, analyze_market_impact data cs = .ok m ∧
      m.market_volume_change = none ∧ m.market_revenue_change = none := by
  refine ⟨calculate_price_impact_of_lookup data n p r hl, ?_, ?_⟩
  · simp [impactRecord, pyDiv, hv]
  · obtain ⟨md, hmd⟩ := applyChanges_isOk data cs data hfound
    have han : analyze_market_impact data cs = .ok
        { market_volume_change := none, market_revenue_change := none,
          new_market_shares := calculate_market_shares md } := by
      simp only [analyze_market_impact]
      rw [hmd]
      simp [pyDiv, hV, hR]
    exact ⟨_, han, rfl, rfl⟩

/-- Witness: a one-record snapshot with `volume_sold = 0` yields NaN
(`none`) outputs from both operations. -/
theorem zeroDenominator_nan_witness :
    calculate_price_impact [⟨"A", 10, 0, some (-2), none⟩] "A" 10
        = .ok ⟨11, 0, 0, none, none⟩ ∧
      analyze_market_impact [⟨"A", 10, 0, some (-2), none⟩] [⟨"A", 5⟩]
        = .ok ⟨none, none, [("A", ⟨none, none⟩)]⟩ := by
  have h := zeroDenominator_nan [⟨"A", 10, 0, some (-2), none⟩] "A" 10
    ⟨"A", 10, 0, some (-2), none⟩ [⟨"A", 5⟩] (by with_unfolding_all rfl) rfl
    (by
      intro c hc
      rw [List.mem_singleton] at hc
      subst hc
      with_unfolding_all rfl)
    (by with_unfolding_all rfl) (by with_unfolding_all rfl)
  refine ⟨?_, by with_unfolding_all rfl⟩
  rw [h.1]
  with_unfolding_all rfl

/-! ### C9 — the snapshot is never mutated -/

/-- C9: both operations, seen as state transformers on the calculator
object, leave the snapshot untouched on every input (all writes of the
source go to the working copy, which is discarded), and a subsequent call
consequently computes against the identical snapshot. -/
theorem engine_preserves_snapshot (c : PriceCalculator) (n : String) (p : ℚ)
    (cs : List PriceChange) :
    (calcImpactState c n p).2 = c ∧
    (analyzeMarketState c cs).2 = c ∧
    (calcImpactState (analyzeMarketState c cs).2 n p).1 = (calcImpactState c n p).1 ∧
    (analyzeMarketState (calcImpactState c n p).2 cs).1 = (analyzeMarketState c cs).1 :=
  ⟨rfl, rfl, rfl, rfl⟩

/-! ### C10 — duplicate names resolve to the first matching row -/

theorem lookupSku_append_first (post : List SkuRecord) (r : SkuRecord) (n : String)
    (hname : r.name = n) :
    ∀ pre : List SkuRecord, (∀ s ∈ pre, s.name ≠ n) →
      lookupSku (pre ++ r :: post) n = some r := by
  intro pre
  induction pre with
  | nil =>
    intro _
    simp [lookupSku, List.find?_cons_of_pos, hname]
  | cons d rest ih =>
    intro hpre
    have hd : d.name ≠ n := hpre d (List.mem_cons_self d rest)
    rw [List.cons_append]
    simpa [lookupSku, List.find?_cons_of_neg, hd] using
      ih (fun s hs => hpre s (List.mem_cons_of_mem d hs))

theorem updateFirst_append_first (post : List SkuRecord) (r : SkuRecord) (n : String)
    (nv np : ℚ) (hname : r.name = n) :
    ∀ pre : List SkuRecord, (∀ s ∈ pre, s.name ≠ n) →
      updateFirst (pre ++ r :: post) n nv np
        = pre ++ { r with volume_sold := nv, customer_price := np } :: post := by
  intro pre
  induction pre with
  | nil =>
    intro _
    simp [updateFirst, hname]
  | cons d rest ih =>
    intro hpre
    have hd : d.name ≠ n := hpre d (List.mem_cons_self d rest)
    rw [List.cons_append, List.cons_append]
    simp only [updateFirst, if_neg hd]
    rw [ih (fun s hs => hpre s (List.mem_cons_of_mem d hs))]

/-- C10: in a snapshot with duplicate names, both operations resolve a name
to the FIRST matching row in table order, deterministically and without
error: the read sees only that row, and the market write rewrites only that
row, leaving later duplicates untouched. -/
theorem duplicateNames_firstMatch (pre post : List SkuRecord) (r : SkuRecord)
    (n : String) (p : ℚ)
    (hname : r.name = n) (hpre : ∀ s ∈ pre, s.name ≠ n) :
    calculate_price_impact (pre ++ r :: post) n p = .ok (impactRecord r p) ∧
    applyChanges (pre ++ r :: post) (pre ++ r :: post) [⟨n, p⟩]
      = .ok (pre ++
          { r with volume_sold := (impactRecord r p).new_volume,
                   customer_price := (impactRecord r p).new_price } :: post) := by
  have hl := lookupSku_append_first post r n hname pre hpre
  have hcalc := calculate_price_impact_of_lookup (pre ++ r :: post) n p r hl
  refine ⟨hcalc, ?_⟩
  simp only [applyChanges, hcalc]
  rw [updateFirst_append_first post r n _ _ hname pre hpre]

/-- Witness: a snapshot holding two rows named "A"; the projection reads
the first, and the batch write modifies only the first. -/
theorem duplicateNames_firstMatch_witness :
    calculate_price_impact
        [⟨"X", 1, 1, none, none⟩, ⟨"A", 10, 100, some (-2), some 20⟩,
          ⟨"A", 99, 99, none, none⟩] "A" 10
        = .ok ⟨11, 80, 880, some 176, some (-20)⟩ ∧
      applyChanges
        [⟨"X", 1, 1, none, none⟩, ⟨"A", 10, 100, some (-2), some 20⟩,
          ⟨"A", 99, 99, none, none⟩]
        [⟨"X", 1, 1, none, none⟩, ⟨"A", 10, 100, some (-2), some 20⟩,
          ⟨"A", 99, 99, none, none⟩]
        [⟨"A", 10⟩]
        = .ok [⟨"X", 1, 1, none, none⟩, ⟨"A", 11, 80, some (-2), some 20⟩,
            ⟨"A", 99, 99, none, none⟩] := by
  have h := duplicateNames_firstMatch [⟨"X", 1, 1, none, none⟩]
    [⟨"A", 99, 99, none, none⟩] ⟨"A", 10, 100, some (-2), some 20⟩ "A" 10 rfl
    (by
      intro s hs
      rw [List.mem_singleton] at hs
      subst hs
      simp)
  simp only [List.cons_append, List.nil_append] at h
  refine ⟨?_, ?_⟩
  · rw [h.1]; with_unfolding_all rfl
  · rw [h.2]; with_unfolding_all rfl

/-! ### C7 — share percentages sum to 100 (corrected tolerance) -/

theorem insertAssoc_of_not_mem (k : String) (v : ShareEntry) :
    ∀ m : List (String × ShareEntry), (∀ q ∈ m, q.1 ≠ k) →
      insertAssoc m k v = m ++ [(k, v)] := by
  intro m
  induction m with
  | nil => intro _; rfl
  | cons q rest ih =>
    intro hm
    have hq : q.1 ≠ k := hm q (List.mem_cons_self q rest)
    cases q with
    | mk k' v' =>
      simp only [insertAssoc, if_neg hq, List.cons_append]
      rw [ih (fun q' hq' => hm q' (List.mem_cons_of_mem _ hq'))]

theorem shares_foldl (f : SkuRecord → ShareEntry) :
    ∀ (rows : List SkuRecord) (acc : List (String × ShareEntry)),
      (rows.map (fun s => s.name)).Nodup →
      (∀ q ∈ acc, ∀ s ∈ rows, q.1 ≠ s.name) →
      rows.foldl (fun m sku => insertAssoc m sku.name (f sku)) acc
        = acc ++ rows.map (fun s => (s.name, f s)) := by
  intro rows
  induction rows with
  | nil => intro acc _ _; simp
  | cons d rest ih =>
    intro acc hnd hdisj
    rw [List.map_cons, List.nodup_cons] at hnd
    rw [List.foldl_cons]
    rw [insertAssoc_of_not_mem d.name (f d) acc
      (fun q hq => hdisj q hq d (List.mem_cons_self d rest))]
    rw [ih (acc ++ [(d.name, f d)]) hnd.2 ?_]
    · simp
    · intro q hq s hs
      rcases List.mem_append.mp hq with h | h
      · exact hdisj q h s (List.mem_cons_of_mem d hs)
      · rw [List.mem_singleton] at h
        subst h
        intro he
        apply hnd.1
        have hs' : s.name ∈ List.map (fun s => s.name) rest :=
          List.mem_map_of_mem (fun s => s.name) hs
        rw [← he] at hs'
        exact hs'

theorem calculate_market_shares_eq (md : List SkuRecord)
    (hnd : (md.map (fun s => s.name)).Nodup) :
    calculate_market_shares md
      = md.map (fun s => (s.name,
          shareEntry ((md.map (fun t => t.volume_sold)).sum)
            ((md.map (fun t => t.customer_price * t.volume_sold)).sum) s)) := by
  simp only [calculate_market_shares]
  rw [shares_foldl _ md [] hnd (by simp)]
  simp

theorem sumMapMulRight (l : List SkuRecord) (f : SkuRecord → ℚ) (c : ℚ) :
    (l.map (fun s => f s * c)).sum = (l.map f).sum * c := by
  induction l with
  | nil => simp
  | cons d rest ih => simp [ih, add_mul]

theorem trueShares_sum (md : List SkuRecord) (f : SkuRecord → ℚ)
    (h0 : (md.map f).sum ≠ 0) :
    (md.map (fun s => f s / (md.map f).sum * 100)).sum = 100 := by
  have hfun : (fun s => f s / (md.map f).sum * 100)
      = (fun s => f s * (100 / (md.map f).sum)) := by
    funext s
    ring
  rw [hfun, sumMapMulRight md f (100 / (md.map f).sum)]
  field_simp

theorem absSumRnd (l : List ℚ) :
    |(l.map (rnd 1)).sum - l.sum| ≤ (l.length : ℚ) * (1/20) := by
  induction l with
  | nil => simp
  | cons x rest ih =>
    rw [List.map_cons, List.sum_cons, List.sum_cons, List.length_cons]
    have h1 := rnd_one_err x
    have habs : |rnd 1 x + (rest.map (rnd 1)).sum - (x + rest.sum)|
        ≤ |rnd 1 x - x| + |(rest.map (rnd 1)).sum - rest.sum| := by
      have he : rnd 1 x + (rest.map (rnd 1)).sum - (x + rest.sum)
          = (rnd 1 x - x) + ((rest.map (rnd 1)).sum - rest.sum) := by ring
      rw [he]
      exact abs_add _ _
    have hc : ((rest.length + 1 : ℕ) : ℚ) * (1/20)
        = 1/20 + (rest.length : ℚ) * (1/20) := by
      push_cast
      ring
    rw [hc]
    exact le_trans habs (add_le_add h1 ih)

/-- The seven-SKU snapshot on which the ±0.1 share-sum tolerance fails:
six rows hold a 16.64 % share (rounded down to 16.6) and one a 0.16 %
share (rounded up to 0.2), so the rounded shares sum to 99.8. -/
def wideSnapshot : List SkuRecord :=
  [⟨"A", 1, 1664, none, none⟩, ⟨"B", 1, 1664, none, none⟩,
    ⟨"C", 1, 1664, none, none⟩, ⟨"D", 1, 1664, none, none⟩,
    ⟨"E", 1, 1664, none, none⟩, ⟨"F", 1, 1664, none, none⟩,
    ⟨"G", 1, 16, none, none⟩]

/-- C7 as stated is false: on `wideSnapshot` (positive totals) both the
volume shares and the value shares of the unmodified snapshot sum to 99.8,
which misses 100 by 0.2 > 0.1. -/
theorem marketShares_sum_cex :
    0 < (wideSnapshot.map (fun s => s.volume_sold)).sum ∧
    0 < (wideSnapshot.map (fun s => s.customer_price * s.volume_sold)).sum ∧
    ((calculate_market_shares wideSnapshot).map
      (fun q => q.2.volume_share.getD 0)).sum = 499/5 ∧
    ((calculate_market_shares wideSnapshot).map
      (fun q => q.2.value_share.getD 0)).sum = 499/5 ∧
    ¬ (|(499/5 : ℚ) - 100| ≤ 1/10 ∧ |(499/5 : ℚ) - 100| ≤ 1/10) := by
  refine ⟨by with_unfolding_all decide, by with_unfolding_all decide,
    by with_unfolding_all rfl, by with_unfolding_all rfl, ?_⟩
  intro h
  have h1 := (abs_le.mp h.1).1
  norm_num at h1

/-- C7 amended: for a snapshot (or working copy) with unique names and
positive total volume and revenue, the rounded `volume_share` values sum to
100 within ±0.05 per SKU — that is, within `n/20` for `n` rows — and
likewise the `value_share` values; the fixed ±0.1 bound of the claim holds
only for snapshots of at most two SKUs. -/
theorem marketShares_sum_bound (md : List SkuRecord)
    (hnd : (md.map (fun s => s.name)).Nodup)
    (hV : 0 < (md.map (fun s => s.volume_sold)).sum)
    (hR : 0 < (md.map (fun s => s.customer_price * s.volume_sold)).sum) :
    |((calculate_market_shares md).map (fun q => q.2.volume_share.getD 0)).sum - 100|
        ≤ (md.length : ℚ) * (1/20) ∧
    |((calculate_market_shares md).map (fun q => q.2.value_share.getD 0)).sum - 100|
        ≤ (md.length : ℚ) * (1/20) := by
  have hVne : (md.map (fun s => s.volume_sold)).sum ≠ 0 := ne_of_gt hV
  have hRne : (md.map (fun s => s.customer_price * s.volume_sold)).sum ≠ 0 := ne_of_gt hR
  rw [calculate_market_shares_eq md hnd]
  constructor
  · rw [List.map_map]
    have hfun : ((fun q : String × ShareEntry => q.2.volume_share.getD 0) ∘
        (fun s => (s.name,
          shareEntry ((md.map (fun t => t.volume_sold)).sum)
            ((md.map (fun t => t.customer_price * t.volume_sold)).sum) s)))
        = (fun s => rnd 1 (s.volume_sold / (md.map (fun t => t.volume_sold)).sum * 100)) := by
      funext s
      simp [shareEntry, pyDiv, hVne]
    rw [hfun]
    have hmm : md.map (fun s =>
        rnd 1 (s.volume_sold / (md.map (fun t => t.volume_sold)).sum * 100))
        = (md.map (fun s =>
            s.volume_sold / (md.map (fun t => t.volume_sold)).sum * 100)).map (rnd 1) := by
      rw [List.map_map]
      rfl
    rw [hmm]
    have hsum := trueShares_sum md (fun s => s.volume_sold) hVne
    have hb := absSumRnd (md.map (fun s =>
      s.volume_sold / (md.map (fun t => t.volume_sold)).sum * 100))
    rw [hsum, List.length_map] at hb
    exact hb
  · rw [List.map_map]
    have hfun : ((fun q : String × ShareEntry => q.2.value_share.getD 0) ∘
        (fun s => (s.name,
          shareEntry ((md.map (fun t => t.volume_sold)).sum)
            ((md.map (fun t => t.customer_price * t.volume_sold)).sum) s)))
        = (fun s => rnd 1 (s.customer_price * s.volume_sold
            / (md.map (fun t => t.customer_price * t.volume_sold)).sum * 100)) := by
      funext s
      simp [shareEntry, pyDiv, hRne]
    rw [hfun]
    have hmm : md.map (fun s => rnd 1 (s.customer_price * s.volume_sold
          / (md.map (fun t => t.customer_price * t.volume_sold)).sum * 100))
        = (md.map (fun s => s.customer_price * s.volume_sold
            / (md.map (fun t => t.customer_price * t.volume_sold)).sum * 100)).map (rnd 1) := by
      rw [List.map_map]
      rfl
    rw [hmm]
    have hsum := trueShares_sum md (fun s => s.customer_price * s.volume_sold) hRne
    have hb := absSumRnd (md.map (fun s => s.customer_price * s.volume_sold
      / (md.map (fun t => t.customer_price * t.volume_sold)).sum * 100))
    rw [hsum, List.length_map] at hb
    exact hb

/-- Witness: a two-SKU snapshot (shares 33.3/66.7 by volume, 50/50 by
value) stays within the 2·0.05 bound. -/
theorem marketShares_sum_bound_witness :
    |((calculate_market_shares
        [⟨"A", 10, 100, none, none⟩, ⟨"B", 5, 200, none, none⟩]).map
        (fun q => q.2.volume_share.getD 0)).sum - 100| ≤ 1/10 ∧
    |((calculate_market_shares
        [⟨"A", 10, 100, none, none⟩, ⟨"B", 5, 200, none, none⟩]).map
        (fun q => q.2.value_share.getD 0)).sum - 100| ≤ 1/10 := by
  have h := marketShares_sum_bound
    [⟨"A", 10, 100, none, none⟩, ⟨"B", 5, 200, none, none⟩]
    (by with_unfolding_all decide) (by with_unfolding_all decide)
    (by with_unfolding_all decide)
  norm_num at h
  exact h

/-! ### C2 — batch semantics of `analyze_market_impact` -/

theorem projectedRow_name (base : List SkuRecord) (cs : List PriceChange)
    (r : SkuRecord) : (projectedRow base cs r).name = r.name := by
  cases h : lastChangeFor cs r.name with
  | none => simp [projectedRow, h]
  | some c =>
    cases hc : calculate_price_impact base c.sku_name c.price_change with
    | ok imp => simp [projectedRow, h, hc]
    | error e => simp [projectedRow, h, hc]

theorem projectedRow_elasticity (base : List SkuRecord) (cs : List PriceChange)
    (r : SkuRecord) : (projectedRow base cs r).price_elasticity = r.price_elasticity := by
  cases h : lastChangeFor cs r.name with
  | none => simp [projectedRow, h]
  | some c =>
    cases hc : calculate_price_impact base c.sku_name c.price_change with
    | ok imp => simp [projectedRow, h, hc]
    | error e => simp [projectedRow, h, hc]

theorem projectedRow_gp (base : List SkuRecord) (cs : List PriceChange)
    (r : SkuRecord) : (projectedRow base cs r).gp = r.gp := by
  cases h : lastChangeFor cs r.name with
  | none => simp [projectedRow, h]
  | some c =>
    cases hc : calculate_price_impact base c.sku_name c.price_change with
    | ok imp => simp [projectedRow, h, hc]
    | error e => simp [projectedRow, h, hc]

theorem updateFirst_map (f : SkuRecord → SkuRecord) (hf : ∀ s, (f s).name = s.name)
    (n : String) (nv np : ℚ) :
    ∀ data : List SkuRecord, (data.map (fun s => s.name)).Nodup →
      updateFirst (data.map f) n nv np
        = data.map (fun s => if s.name = n
            then { f s with volume_sold := nv, customer_price := np } else f s) := by
  intro data
  induction data with
  | nil => intro _; rfl
  | cons d rest ih =>
    intro hnd
    rw [List.map_cons, List.nodup_cons] at hnd
    rw [List.map_cons, List.map_cons]
    by_cases hd : d.name = n
    · rw [if_pos hd]
      have hfd : (f d).name = n := (hf d).trans hd
      simp only [updateFirst, if_pos hfd]
      have hrest : rest.map (fun s => if s.name = n
          then { f s with volume_sold := nv, customer_price := np } else f s)
          = rest.map f := by
        apply List.map_congr_left
        intro s hs
        have hsn : s.name ≠ n := by
          intro he
          apply hnd.1
          have : s.name ∈ List.map (fun s => s.name) rest :=
            List.mem_map_of_mem (fun s => s.name) hs
          rw [he, ← hd] at this
          exact this
        rw [if_neg hsn]
      rw [hrest]
    · rw [if_neg hd]
      have hfd : ¬ (f d).name = n := by
        rw [hf d]
        exact hd
      simp only [updateFirst, if_neg hfd]
      rw [ih hnd.2]

theorem lastChangeFor_append (cs : List PriceChange) (c : PriceChange) (n : String) :
    lastChangeFor (cs ++ [c]) n
      = if c.sku_name = n then some c else lastChangeFor cs n := by
  unfold lastChangeFor
  rw [List.filter_append]
  by_cases h : c.sku_name = n
  · rw [if_pos h]
    have hf : List.filter (fun c => decide (c.sku_name = n)) [c] = [c] := by
      simp [List.filter_cons, h]
    rw [hf]
    exact List.getLast?_concat _
  · rw [if_neg h]
    have hf : List.filter (fun c => decide (c.sku_name = n)) [c] = [] := by
      simp [List.filter_cons, h]
    rw [hf, List.append_nil]

theorem projectedRow_snoc (base : List SkuRecord) (cs : List PriceChange)
    (c : PriceChange) (imp : SingleImpact)
    (hc : calculate_price_impact base c.sku_name c.price_change = .ok imp)
    (r : SkuRecord) :
    projectedRow base (cs ++ [c]) r
      = if r.name = c.sku_name
          then { projectedRow base cs r with volume_sold := imp.new_volume,
                                             customer_price := imp.new_price }
          else projectedRow base cs r := by
  by_cases h : r.name = c.sku_name
  · rw [if_pos h]
    have hl : lastChangeFor (cs ++ [c]) r.name = some c := by
      rw [lastChangeFor_append, if_pos h.symm]
    have hlhs : projectedRow base (cs ++ [c]) r
        = { r with volume_sold := imp.new_volume, customer_price := imp.new_price } := by
      simp [projectedRow, hl, hc]
    rw [hlhs]
    ext
    · rw [projectedRow_name]
    · rfl
    · rfl
    · rw [projectedRow_elasticity]
    · rw [projectedRow_gp]
  · rw [if_neg h]
    have hl : lastChangeFor (cs ++ [c]) r.name = lastChangeFor cs r.name := by
      rw [lastChangeFor_append, if_neg (fun hh => h hh.symm)]
    simp only [projectedRow, hl]

theorem applyChanges_snoc (base : List SkuRecord) (c : PriceChange) (imp : SingleImpact)
    (hc : calculate_price_impact base c.sku_name c.price_change = .ok imp) :
    ∀ (cs : List PriceChange) (md md' : List SkuRecord),
      applyChanges base md cs = .ok md' →
      applyChanges base md (cs ++ [c])
        = .ok (updateFirst md' c.sku_name imp.new_volume imp.new_price) := by
  intro cs
  induction cs with
  | nil =>
    intro md md' h
    simp only [applyChanges] at h
    injection h with h
    subst h
    simp only [List.nil_append, applyChanges, hc]
  | cons d cs ih =>
    intro md md' h
    rw [List.cons_append]
    cases hd : calculate_price_impact base d.sku_name d.price_change with
    | error e =>
      simp only [applyChanges, hd] at h
      exact Except.noConfusion h
    | ok imp' =>
      simp only [applyChanges, hd] at h ⊢
      exact ih _ md' h

theorem applyChanges_projected (data : List SkuRecord)
    (hnd : (data.map (fun s => s.name)).Nodup) :
    ∀ cs : List PriceChange,
      (∀ c ∈ cs, (lookupSku data c.sku_name).isSome) →
      applyChanges data data cs = .ok (data.map (projectedRow data cs)) := by
  intro cs
  induction cs using List.reverseRecOn with
  | nil =>
    intro _
    have hid : data.map (projectedRow data []) = data := by
      have h : projectedRow data [] = fun r => r := by
        funext r
        simp [projectedRow, lastChangeFor]
      rw [h, List.map_id']
    rw [hid]
    rfl
  | append_singleton cs c ih =>
    intro hfound
    obtain ⟨r0, hr0⟩ := Option.isSome_iff_exists.mp
      (hfound c (List.mem_append_right cs (List.mem_singleton_self c)))
    have hc := calculate_price_impact_of_lookup data c.sku_name c.price_change r0 hr0
    have hok := ih (fun c' h => hfound c' (List.mem_append_left _ h))
    rw [applyChanges_snoc data c _ hc cs data _ hok]
    congr 1
    rw [updateFirst_map (projectedRow data cs) (projectedRow_name data cs)
      c.sku_name _ _ data hnd]
    apply List.map_congr_left
    intro s _
    rw [projectedRow_snoc data cs c _ hc s]

/-- C2: for a snapshot with unique names and a change list whose names all
resolve, the working copy of `analyze_market_impact` is exactly
`data.map (projectedRow data cs)`: every single-SKU impact is computed
against the ORIGINAL snapshot `data` (never a previously updated value —
`projectedRow` calls `calculate_price_impact data`), a row named by several
changes carries the values of the LAST such change in list order
(`lastChangeFor` = last matching entry), rows named by no change keep their
original price and volume, and the post-change totals and shares of the
result are computed from that working copy. -/
theorem marketImpact_batch (data : List SkuRecord) (cs : List PriceChange)
    (hnd : (data.map (fun s => s.name)).Nodup)
    (hfound : ∀ c ∈ cs, (lookupSku data c.sku_name).isSome) :
    applyChanges data data cs = .ok (data.map (projectedRow data cs)) ∧
    analyze_market_impact data cs = .ok
      { market_volume_change :=
          (pyDiv (((data.map (projectedRow data cs)).map (fun s => s.volume_sold)).sum
              - (data.map (fun s => s.volume_sold)).sum)
            ((data.map (fun s => s.volume_sold)).sum)).map (fun q => rnd 1 (q * 100))
        market_revenue_change :=
          (pyDiv (((data.map (projectedRow data cs)).map
                (fun s => s.customer_price * s.volume_sold)).sum
              - (data.map (fun s => s.customer_price * s.volume_sold)).sum)
            ((data.map (fun s => s.customer_price * s.volume_sold)).sum)).map
            (fun q => rnd 1 (q * 100))
        new_market_shares := calculate_market_shares (data.map (projectedRow data cs)) } := by
  have h := applyChanges_projected data hnd cs hfound
  refine ⟨h, ?_⟩
  simp only [analyze_market_impact]
  rw [h]

/-- Witness: the spec §8 two-SKU scenario — a +10 % change on A against
A(10,100,e=−2), B(5,200): new totals 280 and 1880, market changes −6.7 %
and −6.0 %, shares recomputed from the working copy. -/
theorem marketImpact_batch_witness :
    analyze_market_impact
        [⟨"A", 10, 100, some (-2), none⟩, ⟨"B", 5, 200, none, none⟩] [⟨"A", 10⟩]
      = .ok ⟨some (-67/10), some (-6),
          [("A", ⟨some (143/5), some (234/5)⟩), ("B", ⟨some (357/5), some (266/5)⟩)]⟩ := by
  have h := (marketImpact_batch
    [⟨"A", 10, 100, some (-2), none⟩, ⟨"B", 5, 200, none, none⟩] [⟨"A", 10⟩]
    (by with_unfolding_all decide)
    (by
      intro c hc
      rw [List.mem_singleton] at hc
      subst hc
      with_unfolding_all rfl)).2
  rw [h]
  with_unfolding_all rfl
